import Mathlib

/-!
Shallow embedding of the delayed-message dispatch and delivery core of the
`faulty_in_culture` game backend, together with theorems settling the
specification claims about it.

Conventions of the embedding:
* wall-clock instants are unix seconds modelled as `Int`;
* Go maps are association lists whose update removes shadowed keys
  (matching `m[k] = v` semantics);
* the redis offline store is a list of (key, value, expiry) entries,
  `SET ... EX ttl` storing expiry `now + ttl`;
* fallible external effects (the durable-store UPDATE, the redis SET) are
  driven by explicit outcome flags, and socket writes by a per-connection
  `writeOk` flag, in place of the runtime errors of the source;
* concurrent mutation of the shared connection registry between the
  `IsOnline` check and the `SendMessage` call is modelled by passing the
  registry snapshot seen at each of the two points.
-/

/-! ## Association-list maps (Go map semantics) -/

def mapSet {α : Type} (m : List (String × α)) (k : String) (v : α) :
    List (String × α) :=
  (k, v) :: m.filter (fun p => p.1 ≠ k)

def mapGet {α : Type} (m : List (String × α)) (k : String) : Option α :=
  (m.find? (fun p => p.1 == k)).map (fun p => p.2)

def mapDel {α : Type} (m : List (String × α)) (k : String) :
    List (String × α) :=
  m.filter (fun p => p.1 ≠ k)

theorem mapGet_mapSet_same {α : Type} (m : List (String × α)) (k : String)
    (v : α) : mapGet (mapSet m k v) k = some v := by
  simp [mapGet, mapSet, List.find?]

/-! ## Connections and the websocket manager (src/unnamed/part_037) -/

/-- A registered socket. `id` identifies the underlying socket object;
`writeOk` is the outcome oracle for `conn.WriteMessage` on this socket. -/
structure Conn where
  id : Nat
  writeOk : Bool
deriving DecidableEq, Repr

/-- A server-initiated JSON frame `{task_id, result, type}`. -/
structure Frame where
  task_id : String
  result : String
  kind : String
deriving DecidableEq, Repr

/-- `websocket.Manager`: `clients` is the Go map `userID -> *websocket.Conn`
(one entry per user), `lastActive` the map of last-active instants, and
`closedIds` records sockets on which `conn.Close()` has been called. -/
structure Manager where
  clients : List (String × Conn)
  lastActive : List (String × Int)
  closedIds : List Nat
deriving DecidableEq, Repr

def Manager.empty : Manager := ⟨[], [], []⟩

/-- `Manager.Register`: `m.clients[userID] = conn; m.lastActive[userID] = now`. -/
def Manager.Register (m : Manager) (userID : String) (conn : Conn)
    (now : Int) : Manager :=
  { m with
    clients := mapSet m.clients userID conn
    lastActive := mapSet m.lastActive userID now }

/-- `Manager.Unregister`: if a connection is registered, close it and delete
both map entries; otherwise do nothing. -/
def Manager.Unregister (m : Manager) (userID : String) : Manager :=
  match mapGet m.clients userID with
  | some conn =>
      { clients := mapDel m.clients userID
        lastActive := mapDel m.lastActive userID
        closedIds := conn.id :: m.closedIds }
  | none => m

/-- `Manager.IsOnline`: key present in the clients map. -/
def Manager.IsOnline (m : Manager) (userID : String) : Bool :=
  (mapGet m.clients userID).isSome

/-- Result of `Manager.SendMessage`: the updated manager, the returned
error, the ids of connections a write was attempted on, and the frames that
were actually written out. -/
structure SendOutcome where
  mgr : Manager
  err : Option String
  attempted : List Nat
  delivered : List (Nat × Frame)
deriving Repr

/-- `Manager.SendMessage`: look the user up; if absent return nil
(`用户不在线，不报错`); otherwise refresh `lastActive` and write the frame,
returning the write error if any. -/
def Manager.SendMessage (m : Manager) (userID : String) (f : Frame)
    (now : Int) : SendOutcome :=
  match mapGet m.clients userID with
  | none => { mgr := m, err := none, attempted := [], delivered := [] }
  | some conn =>
      let m2 : Manager :=
        { m with lastActive := mapSet m.lastActive userID now }
      if conn.writeOk then
        { mgr := m2, err := none, attempted := [conn.id],
          delivered := [(conn.id, f)] }
      else
        { mgr := m2, err := some "write error", attempted := [conn.id],
          delivered := [] }

/-! ## Offline store (redis string keys, src/internal/queue/queue.go) -/

/-- One live redis string key: the key, its value, and the instant at which
it expires (`SET ... EX ttl` stores `now + ttl`). -/
structure OfflineEntry where
  key : String
  value : String
  expiry : Int
deriving DecidableEq, Repr

abbrev OfflineStore := List OfflineEntry

/-- The key under which a task's offline result is stored:
`OfflineKeyPrefix + taskID` with `OfflineKeyPrefix = "offline:result:"`. -/
def offlineResultKey (taskID : String) : String :=
  "offline:result:" ++ taskID

/-- redis `SET key value EX ttl`: overwrite-on-collision. -/
def redisSet (s : OfflineStore) (k v : String) (expiry : Int) : OfflineStore :=
  ⟨k, v, expiry⟩ :: List.filter (fun e => e.key ≠ k) s

/-- redis `GET key`: the value of the first live (unexpired) entry. -/
def redisGet (s : OfflineStore) (now : Int) (k : String) : Option String :=
  (List.find? (fun e => e.key == k && decide (now < e.expiry)) s).map
    (fun e => e.value)

/-- `StoreOfflineMessage(taskID, message)`: `SET` with a one-hour TTL. -/
def StoreOfflineMessage (s : OfflineStore) (taskID message : String)
    (now : Int) : OfflineStore :=
  redisSet s (offlineResultKey taskID) message (now + 3600)

/-- `GetOfflineMessage(taskID)`. -/
def GetOfflineMessage (s : OfflineStore) (taskID : String) (now : Int) :
    Option String :=
  redisGet s now (offlineResultKey taskID)

/-- `DeleteOfflineMessage(taskID)`: redis `DEL`. -/
def DeleteOfflineMessage (s : OfflineStore) (taskID : String) : OfflineStore :=
  List.filter (fun e => e.key ≠ offlineResultKey taskID) s

/-- `key[n:]` — dropping a known ASCII prefix of a key, over the character
list (the byte-indexed slice of the source coincides with it on these
keys). -/
def strDropChars (s : String) (n : Nat) : String :=
  String.mk (s.data.drop n)

/-- `GetUserOfflineMessages(userID)`: `KEYS "offline:result:*"` — every live
key matching the prefix pattern (prefix matching over the character list).
The `userID` argument is accepted but not used by the source. -/
def GetUserOfflineMessages (userID : String) (s : OfflineStore) (now : Int) :
    List String :=
  (List.filter
    (fun e => List.isPrefixOf "offline:result:".data e.key.data &&
      decide (now < e.expiry))
    s).map (fun e => e.key)

/-! ## Durable store: the `messages` table (src/internal/models/message.go) -/

/-- A row of the `messages` table. `deleted_at` is the gorm soft-delete
tombstone; `processed_at` is null while `PENDING`. -/
structure Message where
  id : Nat
  task_id : String
  user_id : String
  content : String
  status : String
  processed_at : Option Int
  created_at : Int
  updated_at : Int
  deleted_at : Option Int
deriving DecidableEq, Repr

abbrev DB := List Message

/-- A gorm lookup under the default scope: the first row matching `task_id`
that is not tombstoned (`deleted_at IS NULL`). -/
def dbGet (db : DB) (taskID : String) : Option Message :=
  List.find? (fun m => m.task_id == taskID && m.deleted_at.isNone) db

/-- An `Unscoped` gorm lookup by `task_id`: tombstoned rows included. -/
def dbGetUnscoped (db : DB) (taskID : String) : Option Message :=
  List.find? (fun m => m.task_id == taskID) db

/-- The worker's completion UPDATE
(`Where("task_id = ?").Updates(status, content, processed_at)`): every
non-tombstoned row matching the task id — with no condition on its current
status — gets `status := "completed"`, `content := result`,
`processed_at := now` (and gorm's `autoUpdateTime` refreshes `updated_at`). -/
def dbUpdateCompleted (db : DB) (taskID result : String) (now : Int) : DB :=
  List.map
    (fun m =>
      if m.task_id == taskID && m.deleted_at.isNone then
        { m with
          status := "completed"
          content := result
          processed_at := some now
          updated_at := now }
      else m)
    db

/-! ## The delayed-message handler (src/internal/handlers/message_handler.go) -/

/-- `queue.MessagePayload`: the in-broker envelope.  The repository mixes
string and unsigned-integer user ids across layers; the embedding uses one
string-valued user-id type throughout, which no claim depends on. -/
structure MessagePayload where
  TaskID : String
  UserID : String
  Message : String
  ProcessTime : Int
deriving DecidableEq, Repr

/-- The processed result text
`fmt.Sprintf("处理完成: %s [processed at %s]", msg, now)` — the wall-clock
rendering is abstracted to the decimal rendering of the instant. -/
def mkResultMessage (message : String) (now : Int) : String :=
  "处理完成: " ++ message ++ " [processed at " ++ toString now ++ "]"

/-- Outcome oracles for the two fallible external calls inside the handler:
the durable-store UPDATE and the redis SET of the offline slot. -/
structure ProcEnv where
  dbOk : Bool
  storeOk : Bool
deriving DecidableEq, Repr

/-- Result of one `ProcessDelayedMessage` invocation. -/
structure ProcResult where
  db : DB
  store : OfflineStore
  mgr : Manager
  pushed : List (Nat × Frame)
  error : Option String
deriving Repr

/-- `ProcessDelayedMessage(ctx, payload)`, the worker's handler: build the
result text, unconditionally UPDATE the row to completed (logging on
failure), then route delivery — live push when `IsOnline`, offline slot
when offline or when the push errored.  `mgrCheck` is the registry snapshot
read by `IsOnline`, `mgrSend` the snapshot read by `SendMessage`; a
sequential run has the two equal. -/
def ProcessDelayedMessage (env : ProcEnv) (p : MessagePayload) (now : Int)
    (db : DB) (store : OfflineStore) (mgrCheck mgrSend : Manager) :
    ProcResult :=
  let resultMessage := mkResultMessage p.Message now
  let db2 := if env.dbOk then dbUpdateCompleted db p.TaskID resultMessage now
             else db
  if mgrCheck.IsOnline p.UserID then
    let out := mgrSend.SendMessage p.UserID
      ⟨p.TaskID, resultMessage, "realtime"⟩ now
    match out.err with
    | some _ =>
        if env.storeOk then
          { db := db2, store := StoreOfflineMessage store p.TaskID resultMessage now
            mgr := out.mgr, pushed := out.delivered, error := none }
        else
          { db := db2, store := store, mgr := out.mgr,
            pushed := out.delivered, error := some "store offline failed" }
    | none =>
        { db := db2, store := store, mgr := out.mgr,
          pushed := out.delivered, error := none }
  else
    if env.storeOk then
      { db := db2, store := StoreOfflineMessage store p.TaskID resultMessage now
        mgr := mgrSend, pushed := [], error := none }
    else
      { db := db2, store := store, mgr := mgrSend, pushed := [],
        error := some "store offline failed" }

/-! ## The stream consumer (src/internal/queue/queue.go, processMessage) -/

/-- Classification of one dequeued stream entry's `data` field: absent or
not a string, a string that fails JSON decoding, or a decoded envelope. -/
inductive RawData where
  | missing : RawData
  | malformed : String → RawData
  | wellFormed : MessagePayload → RawData
deriving DecidableEq, Repr

/-- Observable outcome of `processMessage` on one entry. -/
structure WorkerResult where
  db : DB
  store : OfflineStore
  mgr : Manager
  pushed : List (Nat × Frame)
  handlerInvokedAt : Option Int
  handlerErr : Option String
  acked : Bool
deriving Repr

/-- `processMessage(msg, handler)`: malformed entries are acked and dropped
without invoking the handler; a well-formed envelope sleeps until
`ProcessTime` when that is in the future, invokes `ProcessDelayedMessage`
at the resulting instant, and the entry is acked at the end regardless of
the handler's error. -/
def processMessage (raw : RawData) (env : ProcEnv) (now : Int) (db : DB)
    (store : OfflineStore) (mgrCheck mgrSend : Manager) : WorkerResult :=
  match raw with
  | .missing =>
      { db := db, store := store, mgr := mgrSend, pushed := [],
        handlerInvokedAt := none, handlerErr := none, acked := true }
  | .malformed _ =>
      { db := db, store := store, mgr := mgrSend, pushed := [],
        handlerInvokedAt := none, handlerErr := none, acked := true }
  | .wellFormed p =>
      let t := if now < p.ProcessTime then p.ProcessTime else now
      let r := ProcessDelayedMessage env p t db store mgrCheck mgrSend
      { db := r.db, store := r.store, mgr := r.mgr, pushed := r.pushed,
        handlerInvokedAt := some t, handlerErr := r.error, acked := true }

/-! ## Query-result endpoint (message_handler.go, QueryResult) -/

inductive QueryResp where
  | badRequest : QueryResp
  | pending : QueryResp
  | completed : String → QueryResp
deriving DecidableEq, Repr

/-- `GET /query-result`: 400 on a missing `task_id`; `{status:"pending"}`
when the offline `GET` errors (no slot); otherwise delete the slot and
return `{status:"completed", result}`. -/
def QueryResult (taskID : String) (store : OfflineStore) (now : Int) :
    QueryResp × OfflineStore :=
  if taskID = "" then (.badRequest, store)
  else
    match GetOfflineMessage store taskID now with
    | none => (.pending, store)
    | some result => (.completed result, DeleteOfflineMessage store taskID)

/-! ## Reconnect drain (message_handler.go, pushOfflineMessages) -/

/-- `pushOfflineMessages(userID, conn)`: list the offline keys, and for
each one read the value, write the `{task_id, result, type:"offline"}`
frame on the new connection, and delete the slot when the write succeeded;
on a read or write failure the entry is left in place. -/
def pushOfflineMessages (userID : String) (conn : Conn)
    (store : OfflineStore) (now : Int) : OfflineStore × List Frame :=
  let keys := GetUserOfflineMessages userID store now
  keys.foldl
    (fun acc key =>
      let taskID := strDropChars key (String.length "offline:result:")
      match GetOfflineMessage acc.1 taskID now with
      | none => acc
      | some result =>
          if conn.writeOk then
            (DeleteOfflineMessage acc.1 taskID,
             acc.2 ++ [⟨taskID, result, "offline"⟩])
          else acc)
    (store, [])

/-! ## Retention sweep (src/internal/scheduler/message_cleanup.go) -/

/-- `cleanupOldMessages()`: with `cleanupDays` defaulting to 30 when
non-positive, issue a gorm `Delete` on completed rows whose `processed_at`
precedes `now − cleanupDays` — a soft delete, since `models.Message` has a
`gorm.DeletedAt` field and `Unscoped` is not used: matching live rows get
their tombstone set, nothing is removed from the table.  `AddDate(0,0,-d)`
is modelled as `d` whole days of 86400 seconds. -/
def cleanupOldMessages (cleanupDays : Int) (now : Int) (db : DB) : DB :=
  let days := if cleanupDays ≤ 0 then 30 else cleanupDays
  let cutoff := now - days * 86400
  List.map
    (fun m =>
      if m.deleted_at.isNone && m.status == "completed" &&
          (match m.processed_at with
           | some p => decide (p < cutoff)
           | none => false) then
        { m with deleted_at := some now }
      else m)
    db

/-! ## History listing (message_handler.go, GetMessages; dto bindings) -/

/-- `dto.GetMessagesRequest` after a successful bind. -/
structure GetMessagesRequest where
  Page : Int
  Limit : Int
  Status : String
deriving DecidableEq, Repr

/-- gin's `ShouldBindQuery` over
`Page int (omitempty,min=1)`, `Limit int (omitempty,min=1,max=100)`,
`Status string (omitempty,oneof=pending completed failed)`: an absent
parameter binds the zero value; `omitempty` skips validation exactly when
the bound value is the zero value; any other out-of-range value fails the
bind. -/
def bindGetMessages (page limit : Option Int) (status : Option String) :
    Option GetMessagesRequest :=
  if page.getD 0 ≠ 0 ∧ page.getD 0 < 1 then none
  else if limit.getD 0 ≠ 0 ∧ (limit.getD 0 < 1 ∨ 100 < limit.getD 0) then
    none
  else if status.getD "" ≠ "" ∧ status.getD "" ≠ "pending" ∧
      status.getD "" ≠ "completed" ∧ status.getD "" ≠ "failed" then none
  else some ⟨page.getD 0, limit.getD 0, status.getD ""⟩

/-- Insert a row into a list kept in descending `created_at` order. -/
def insertDesc (m : Message) : List Message → List Message
  | [] => [m]
  | x :: xs =>
      if x.created_at ≤ m.created_at then m :: x :: xs
      else x :: insertDesc m xs

/-- `ORDER BY created_at DESC` as an insertion sort. -/
def sortByCreatedDesc (l : List Message) : List Message :=
  l.foldr insertDesc []

inductive MsgResponse where
  | badRequest : MsgResponse
  | ok : Nat → Int → Int → List Message → MsgResponse
deriving DecidableEq, Repr

/-- `GET /messages`: 400 on a missing `user_id` or a failed bind; then page
defaults to 1 when below 1, limit defaults to 10 when outside [1,100], and
the non-tombstoned rows of the user (status-filtered when requested) are
sorted newest-first and paginated with `OFFSET (page-1)*limit LIMIT limit`. -/
def GetMessages (userID : String) (page limit : Option Int)
    (status : Option String) (db : DB) : MsgResponse :=
  if userID = "" then .badRequest
  else
    match bindGetMessages page limit status with
    | none => .badRequest
    | some req =>
        let effPage := if req.Page < 1 then 1 else req.Page
        let effLimit := if req.Limit < 1 ∨ 100 < req.Limit then 10
                        else req.Limit
        let offset := (effPage - 1) * effLimit
        let rows := List.filter
          (fun m => m.deleted_at.isNone && m.user_id == userID &&
            (req.Status == "" || m.status == req.Status)) db
        let msgs :=
          ((sortByCreatedDesc rows).drop offset.toNat).take effLimit.toNat
        .ok rows.length effPage effLimit msgs

/-! ## Helper lemmas -/

theorem sendMessage_attempted (m : Manager) (u : String) (c : Conn)
    (f : Frame) (now : Int) (h : mapGet m.clients u = some c) :
    (m.SendMessage u f now).attempted = [c.id] := by
  unfold Manager.SendMessage
  rw [h]
  by_cases hw : c.writeOk <;> simp [hw]

/-- The durable-store outcome of `ProcessDelayedMessage` is the same in
every delivery branch. -/
theorem processDelayedMessage_db (env : ProcEnv) (p : MessagePayload)
    (now : Int) (db : DB) (store : OfflineStore) (mgrCheck mgrSend : Manager) :
    (ProcessDelayedMessage env p now db store mgrCheck mgrSend).db
      = if env.dbOk then
          dbUpdateCompleted db p.TaskID (mkResultMessage p.Message now) now
        else db := by
  unfold ProcessDelayedMessage
  by_cases hon : mgrCheck.IsOnline p.UserID <;> simp only [hon]
  · cases (mgrSend.SendMessage p.UserID
        ⟨p.TaskID, mkResultMessage p.Message now, "realtime"⟩ now).err <;>
      by_cases hs : env.storeOk <;> simp [hs]
  · by_cases hs : env.storeOk <;> simp [hs]

/-- When the redis SET succeeds, `ProcessDelayedMessage` returns nil. -/
theorem processDelayedMessage_error_none (env : ProcEnv) (p : MessagePayload)
    (now : Int) (db : DB) (store : OfflineStore) (mgrCheck mgrSend : Manager)
    (hs : env.storeOk = true) :
    (ProcessDelayedMessage env p now db store mgrCheck mgrSend).error
      = none := by
  unfold ProcessDelayedMessage
  by_cases hon : mgrCheck.IsOnline p.UserID <;> simp only [hon]
  · cases (mgrSend.SendMessage p.UserID
        ⟨p.TaskID, mkResultMessage p.Message now, "realtime"⟩ now).err <;>
      simp [hs]
  · simp [hs]

/-! ## Claim theorems -/

/-- C5 counterexample: two `Register` calls for user `"u"` with no
`Unregister` in between.  Contrary to the claim, the first connection (id 1)
is displaced: the clients map holds only the second connection, and a
subsequent `SendMessage` attempts delivery only to connection 2. -/
theorem c5_counterexample :
    ((Manager.empty.Register "u" ⟨1, true⟩ 0).Register "u" ⟨2, true⟩ 1).clients
        = [("u", ⟨2, true⟩)] ∧
    ((Manager.empty.Register "u" ⟨1, true⟩ 0).Register "u"
        ⟨2, true⟩ 1).IsOnline "u" = true ∧
    (((Manager.empty.Register "u" ⟨1, true⟩ 0).Register "u"
        ⟨2, true⟩ 1).SendMessage "u" ⟨"t", "r", "realtime"⟩ 2).attempted
        = [2] := by
  decide

/-- C5 (amended): the registry holds at most one connection per recipient:
a second `Register` for the same recipient replaces the first connection in
the map (without closing it — `closedIds` is untouched), `IsOnline` remains
true, and a subsequent `SendMessage` attempts delivery only to the most
recently registered connection. -/
theorem c5_register_displaces (m : Manager) (u : String) (c1 c2 : Conn)
    (t1 t2 now : Int) (f : Frame) :
    mapGet ((m.Register u c1 t1).Register u c2 t2).clients u = some c2 ∧
    ((m.Register u c1 t1).Register u c2 t2).IsOnline u = true ∧
    ((m.Register u c1 t1).Register u c2 t2).closedIds = m.closedIds ∧
    (((m.Register u c1 t1).Register u c2 t2).SendMessage u f now).attempted
      = [c2.id] := by
  have hget : mapGet ((m.Register u c1 t1).Register u c2 t2).clients u
      = some c2 := by
    simp [Manager.Register, mapGet_mapSet_same]
  refine ⟨hget, ?_, rfl, sendMessage_attempted _ _ _ _ _ hget⟩
  simp [Manager.IsOnline, hget]

/-- C10: `SendMessage` returns nil whenever the recipient has no registered
connection (with no write attempted), and returns an error only when the
socket write to a registered connection fails — so its result cannot
distinguish a delivered message from one whose recipient disconnected
between an `IsOnline` check and the send. -/
theorem c10_send_success_when_absent (m : Manager) (u : String) (f : Frame)
    (now : Int) :
    (mapGet m.clients u = none →
      (m.SendMessage u f now).err = none ∧
      (m.SendMessage u f now).attempted = [] ∧
      (m.SendMessage u f now).delivered = []) ∧
    (∀ e, (m.SendMessage u f now).err = some e →
      ∃ c, mapGet m.clients u = some c ∧ c.writeOk = false) := by
  unfold Manager.SendMessage
  cases h : mapGet m.clients u with
  | none => simp
  | some c =>
      by_cases hw : c.writeOk <;> simp [hw]

/-- C10 witness: a concrete recipient with no registered connection. -/
theorem c10_witness :
    (Manager.empty.SendMessage "u" ⟨"t", "r", "realtime"⟩ 0).err = none ∧
    (Manager.empty.SendMessage "u" ⟨"t", "r", "realtime"⟩ 0).attempted = [] ∧
    (Manager.empty.SendMessage "u" ⟨"t", "r", "realtime"⟩ 0).delivered = [] :=
  (c10_send_success_when_absent Manager.empty "u" ⟨"t", "r", "realtime"⟩ 0).1
    rfl

/-- C7: for every dequeued entry, the entry is acked at the end of
processing whatever the handler returned; a well-formed envelope's handler
is invoked no earlier than its `ProcessTime`; and an entry whose payload
fails to decode is acked and dropped — state untouched, nothing pushed,
handler never invoked. -/
theorem c7_delay_gate_unconditional_ack (raw : RawData) (env : ProcEnv)
    (now : Int) (db : DB) (store : OfflineStore) (mgrCheck mgrSend : Manager) :
    (processMessage raw env now db store mgrCheck mgrSend).acked = true ∧
    (∀ p t, raw = .wellFormed p →
      (processMessage raw env now db store mgrCheck mgrSend).handlerInvokedAt
        = some t → p.ProcessTime ≤ t) ∧
    (∀ s, (raw = .missing ∨ raw = .malformed s) →
      (processMessage raw env now db store mgrCheck mgrSend).handlerInvokedAt
          = none ∧
      (processMessage raw env now db store mgrCheck mgrSend).db = db ∧
      (processMessage raw env now db store mgrCheck mgrSend).store = store ∧
      (processMessage raw env now db store mgrCheck mgrSend).pushed = []) := by
  cases raw with
  | missing => simp [processMessage]
  | malformed s => simp [processMessage]
  | wellFormed p =>
      refine ⟨rfl, ?_, ?_⟩
      · intro q t hq ht
        have hpq : p = q := by injection hq
        subst hpq
        simp only [processMessage] at ht
        by_cases hlt : now < p.ProcessTime
        · rw [if_pos hlt] at ht
          have := Option.some.inj ht
          omega
        · rw [if_neg hlt] at ht
          have := Option.some.inj ht
          omega
      · intro s hs
        rcases hs with hs | hs <;> exact absurd hs (by simp)

/-- C7 witness: a well-formed envelope due at 7, dequeued at 3, is gated to
its due time and acked. -/
theorem c7_witness :
    (processMessage (.wellFormed ⟨"t", "u", "m", 7⟩) ⟨true, true⟩ 3 [] []
        Manager.empty Manager.empty).acked = true ∧
    (7 : Int) ≤ 7 :=
  ⟨(c7_delay_gate_unconditional_ack (.wellFormed ⟨"t", "u", "m", 7⟩)
      ⟨true, true⟩ 3 [] [] Manager.empty Manager.empty).1,
   (c7_delay_gate_unconditional_ack (.wellFormed ⟨"t", "u", "m", 7⟩)
      ⟨true, true⟩ 3 [] [] Manager.empty Manager.empty).2.1
     ⟨"t", "u", "m", 7⟩ 7 rfl (by decide)⟩

/-- After the redis `DEL` of a task's offline slot, a `GET` for that task
finds nothing. -/
theorem getOffline_delete (store : OfflineStore) (taskID : String)
    (now : Int) :
    GetOfflineMessage (DeleteOfflineMessage store taskID) taskID now
      = none := by
  unfold GetOfflineMessage DeleteOfflineMessage redisGet
  have h : List.find?
      (fun e => e.key == offlineResultKey taskID && decide (now < e.expiry))
      (List.filter (fun e => decide (e.key ≠ offlineResultKey taskID)) store)
      = none := by
    rw [List.find?_eq_none]
    intro e he
    rw [List.mem_filter] at he
    have hne : e.key ≠ offlineResultKey taskID := by
      simpa using he.2
    simp [hne]
  rw [h]
  rfl

/-- C8: `GET /query-result` answers 400 exactly on a missing `task_id`;
when no offline slot exists it reports pending (never an error) and leaves
the store unchanged; when a slot exists it reports completed with the
result, deletes the slot, and an immediately repeated call reports
pending. -/
theorem c8_query_result_read_once (taskID : String) (store : OfflineStore)
    (now : Int) :
    (taskID = "" → QueryResult taskID store now = (.badRequest, store)) ∧
    (taskID ≠ "" → GetOfflineMessage store taskID now = none →
      QueryResult taskID store now = (.pending, store)) ∧
    (∀ v, taskID ≠ "" → GetOfflineMessage store taskID now = some v →
      (QueryResult taskID store now).1 = .completed v ∧
      (QueryResult taskID ((QueryResult taskID store now).2) now).1
        = .pending) := by
  refine ⟨?_, ?_, ?_⟩
  · intro h
    simp [QueryResult, h]
  · intro h hget
    simp [QueryResult, h, hget]
  · intro v h hget
    have h2 : (QueryResult taskID store now).2
        = DeleteOfflineMessage store taskID := by
      simp [QueryResult, h, hget]
    constructor
    · simp [QueryResult, h, hget]
    · rw [h2]
      simp [QueryResult, h, getOffline_delete]

/-- C8 witness: a store holding a slot for task `"t"`; the first call
returns it, the second reports pending. -/
theorem c8_witness :
    (QueryResult "t" [⟨offlineResultKey "t", "res", 100⟩] 0).1
      = .completed "res" ∧
    (QueryResult "t"
        ((QueryResult "t" [⟨offlineResultKey "t", "res", 100⟩] 0).2) 0).1
      = .pending :=
  (c8_query_result_read_once "t" [⟨offlineResultKey "t", "res", 100⟩] 0).2.2
    "res" (by decide) (by decide)

/-- `SET` leaves exactly one entry under the written key. -/
theorem filter_key_redisSet (s : OfflineStore) (k v : String) (ex : Int) :
    List.filter (fun e => e.key == k) (redisSet s k v ex)
      = [⟨k, v, ex⟩] := by
  unfold redisSet
  rw [List.filter_cons]
  simp only [beq_self_eq_true, if_pos]
  have h : List.filter (fun e => e.key == k)
      (List.filter (fun e => decide (e.key ≠ k)) s) = [] := by
    rw [List.filter_eq_nil_iff]
    intro e he
    rw [List.mem_filter] at he
    have hne : e.key ≠ k := by simpa using he.2
    simp [hne]
  rw [h]

/-- C2 counterexample: the recipient is live at the `IsOnline` check but has
disconnected by the time of the send.  `SendMessage` then reports success
without reaching any connection, so the handler neither pushes a frame nor
stores an offline slot — the processed result is silently dropped, and the
handler still returns nil. -/
theorem c2_counterexample :
    (ProcessDelayedMessage ⟨true, true⟩ ⟨"t", "u", "hello", 0⟩ 200 [] []
        (Manager.empty.Register "u" ⟨1, true⟩ 0) Manager.empty).pushed = [] ∧
    (ProcessDelayedMessage ⟨true, true⟩ ⟨"t", "u", "hello", 0⟩ 200 [] []
        (Manager.empty.Register "u" ⟨1, true⟩ 0) Manager.empty).store = [] ∧
    (ProcessDelayedMessage ⟨true, true⟩ ⟨"t", "u", "hello", 0⟩ 200 [] []
        (Manager.empty.Register "u" ⟨1, true⟩ 0) Manager.empty).error
      = none := by
  decide

/-- C2 (amended): when the registry is not mutated between the liveness
check and the send (the sequential case) and the redis SET succeeds, every
completion either writes its frame to the recipient's registered connection
(offline store untouched) or leaves exactly one offline slot under the
task's key, holding the result with a one-hour TTL.  A concurrent
disconnect between the check and the send escapes this dichotomy (see the
counterexample). -/
theorem c2_route_or_store (env : ProcEnv) (p : MessagePayload) (now : Int)
    (db : DB) (store : OfflineStore) (m : Manager)
    (hs : env.storeOk = true) :
    (∃ c, mapGet m.clients p.UserID = some c ∧ c.writeOk = true ∧
      (ProcessDelayedMessage env p now db store m m).pushed
        = [(c.id, ⟨p.TaskID, mkResultMessage p.Message now, "realtime"⟩)] ∧
      (ProcessDelayedMessage env p now db store m m).store = store) ∨
    ((ProcessDelayedMessage env p now db store m m).pushed = [] ∧
      List.filter (fun e => e.key == offlineResultKey p.TaskID)
          (ProcessDelayedMessage env p now db store m m).store
        = [⟨offlineResultKey p.TaskID, mkResultMessage p.Message now,
            now + 3600⟩]) := by
  cases hc : mapGet m.clients p.UserID with
  | none =>
      have hon : m.IsOnline p.UserID = false := by
        simp [Manager.IsOnline, hc]
      right
      constructor
      · simp [ProcessDelayedMessage, hon, hs]
      · simp [ProcessDelayedMessage, hon, hs, StoreOfflineMessage,
          filter_key_redisSet]
  | some c =>
      have hon : m.IsOnline p.UserID = true := by
        simp [Manager.IsOnline, hc]
      by_cases hw : c.writeOk
      · left
        exact ⟨c, rfl, hw,
          by simp [ProcessDelayedMessage, hon, Manager.SendMessage, hc, hw],
          by simp [ProcessDelayedMessage, hon, Manager.SendMessage, hc, hw]⟩
      · right
        constructor
        · simp [ProcessDelayedMessage, hon, Manager.SendMessage, hc, hw, hs]
        · simp [ProcessDelayedMessage, hon, Manager.SendMessage, hc, hw, hs,
            StoreOfflineMessage, filter_key_redisSet]

/-- C2 witness: a live recipient with a healthy socket takes the push
branch. -/
theorem c2_witness :
    (∃ c, mapGet (Manager.empty.Register "u" ⟨1, true⟩ 0).clients "u"
        = some c ∧ c.writeOk = true ∧
      (ProcessDelayedMessage ⟨true, true⟩ ⟨"t", "u", "hi", 0⟩ 9 [] []
          (Manager.empty.Register "u" ⟨1, true⟩ 0)
          (Manager.empty.Register "u" ⟨1, true⟩ 0)).pushed
        = [(c.id, ⟨"t", mkResultMessage "hi" 9, "realtime"⟩)] ∧
      (ProcessDelayedMessage ⟨true, true⟩ ⟨"t", "u", "hi", 0⟩ 9 [] []
          (Manager.empty.Register "u" ⟨1, true⟩ 0)
          (Manager.empty.Register "u" ⟨1, true⟩ 0)).store = []) ∨
    ((ProcessDelayedMessage ⟨true, true⟩ ⟨"t", "u", "hi", 0⟩ 9 [] []
        (Manager.empty.Register "u" ⟨1, true⟩ 0)
        (Manager.empty.Register "u" ⟨1, true⟩ 0)).pushed = [] ∧
      List.filter (fun e => e.key == offlineResultKey "t")
          (ProcessDelayedMessage ⟨true, true⟩ ⟨"t", "u", "hi", 0⟩ 9 [] []
            (Manager.empty.Register "u" ⟨1, true⟩ 0)
            (Manager.empty.Register "u" ⟨1, true⟩ 0)).store
        = [⟨offlineResultKey "t", mkResultMessage "hi" 9, 9 + 3600⟩]) := by
  simpa using c2_route_or_store ⟨true, true⟩ ⟨"t", "u", "hi", 0⟩ 9 [] []
    (Manager.empty.Register "u" ⟨1, true⟩ 0) rfl

/-- C1 counterexample: a second `Complete` for task `"t"`, whose row is
already COMPLETED with content `"old"` and `processed_at = 100`.  The
re-processing at instant 200 reports success but rewrites the row: the
content becomes the freshly generated result (≠ `"old"`) and
`processed_at` becomes 200. -/
theorem c1_counterexample :
    (ProcessDelayedMessage ⟨true, true⟩ ⟨"t", "u", "hello", 0⟩ 200
        [⟨1, "t", "u", "old", "completed", some 100, 50, 100, none⟩] []
        Manager.empty Manager.empty).error = none ∧
    List.map (fun m => m.content)
        (ProcessDelayedMessage ⟨true, true⟩ ⟨"t", "u", "hello", 0⟩ 200
          [⟨1, "t", "u", "old", "completed", some 100, 50, 100, none⟩] []
          Manager.empty Manager.empty).db
      = [mkResultMessage "hello" 200] ∧
    mkResultMessage "hello" 200 ≠ "old" ∧
    List.map (fun m => m.processed_at)
        (ProcessDelayedMessage ⟨true, true⟩ ⟨"t", "u", "hello", 0⟩ 200
          [⟨1, "t", "u", "old", "completed", some 100, 50, 100, none⟩] []
          Manager.empty Manager.empty).db
      = [some 200] := by
  refine ⟨rfl, rfl, ?_, rfl⟩
  decide

/-- C1 (amended): the completion UPDATE matches on `task_id` alone, so
every processing of an envelope — first delivery and re-delivery alike —
reports success and rewrites each matching live row to COMPLETED with the
freshly generated content and the current instant as `processed_at`;
non-matching (or tombstoned) rows are untouched.  `content` is therefore
mutated on every completion of the task, not only on the single
`PENDING → COMPLETED` edge. -/
theorem c1_complete_overwrites_on_redelivery (env : ProcEnv)
    (p : MessagePayload) (now : Int) (db : DB) (store : OfflineStore)
    (mgrCheck mgrSend : Manager) (hdb : env.dbOk = true)
    (hs : env.storeOk = true) :
    (ProcessDelayedMessage env p now db store mgrCheck mgrSend).error
      = none ∧
    List.Forall₂ (fun m0 m1 =>
        (m0.task_id = p.TaskID ∧ m0.deleted_at = none →
          m1.status = "completed" ∧
          m1.content = mkResultMessage p.Message now ∧
          m1.processed_at = some now ∧
          m1.task_id = m0.task_id ∧ m1.created_at = m0.created_at) ∧
        (¬(m0.task_id = p.TaskID ∧ m0.deleted_at = none) → m1 = m0))
      db (ProcessDelayedMessage env p now db store mgrCheck mgrSend).db := by
  refine ⟨processDelayedMessage_error_none _ _ _ _ _ _ _ hs, ?_⟩
  rw [processDelayedMessage_db, hdb, if_pos rfl]
  unfold dbUpdateCompleted
  rw [List.forall₂_map_right_iff, List.forall₂_same]
  intro m hm
  constructor
  · intro h
    have hb : (m.task_id == p.TaskID && m.deleted_at.isNone) = true := by
      simp [h.1, h.2]
    simp [hb]
  · intro hn
    have hb : (m.task_id == p.TaskID && m.deleted_at.isNone) = false := by
      by_cases h1 : m.task_id = p.TaskID
      · by_cases h2 : m.deleted_at = none
        · exact absurd ⟨h1, h2⟩ hn
        · simp [h1, h2, Option.isNone_iff_eq_none, Option.ne_none_iff_isSome.mp h2]
      · simp [h1]
    simp [hb]

/-- C1 witness: the amended theorem evaluated at a single PENDING row for
the processed task. -/
theorem c1_witness :
    (ProcessDelayedMessage ⟨true, true⟩ ⟨"t", "u", "m1", 7⟩ 7
        [⟨1, "t", "u", "m1", "pending", none, 3, 3, none⟩] []
        Manager.empty Manager.empty).error = none ∧
    List.Forall₂ (fun m0 m1 =>
        (m0.task_id = "t" ∧ m0.deleted_at = none →
          m1.status = "completed" ∧
          m1.content = mkResultMessage "m1" 7 ∧
          m1.processed_at = some 7 ∧
          m1.task_id = m0.task_id ∧ m1.created_at = m0.created_at) ∧
        (¬(m0.task_id = "t" ∧ m0.deleted_at = none) → m1 = m0))
      [⟨1, "t", "u", "m1", "pending", none, 3, 3, none⟩]
      (ProcessDelayedMessage ⟨true, true⟩ ⟨"t", "u", "m1", 7⟩ 7
        [⟨1, "t", "u", "m1", "pending", none, 3, 3, none⟩] []
        Manager.empty Manager.empty).db := by
  simpa using c1_complete_overwrites_on_redelivery ⟨true, true⟩
    ⟨"t", "u", "m1", 7⟩ 7 [⟨1, "t", "u", "m1", "pending", none, 3, 3, none⟩]
    [] Manager.empty Manager.empty rfl rfl

/-- A send that returned an error delivered nothing. -/
theorem sendMessage_err_delivered (m : Manager) (u : String) (f : Frame)
    (now : Int) (e : String) (h : (m.SendMessage u f now).err = some e) :
    (m.SendMessage u f now).delivered = [] := by
  unfold Manager.SendMessage at h ⊢
  cases hc : mapGet m.clients u with
  | none => rw [hc] at h
  | some c =>
      rw [hc] at h
      by_cases hw : c.writeOk <;> simp [hw] at h ⊢

/-- Every row of the completion UPDATE's output is either marked completed
or is an unchanged row of the input. -/
theorem mem_dbUpdateCompleted_status (db : DB) (taskID result : String)
    (now : Int) :
    ∀ mr ∈ dbUpdateCompleted db taskID result now,
      mr.status = "completed" ∨ ∃ m0 ∈ db, mr = m0 := by
  intro mr hmr
  unfold dbUpdateCompleted at hmr
  rw [List.mem_map] at hmr
  obtain ⟨m0, hm0, heq⟩ := hmr
  by_cases hb : (m0.task_id == taskID && m0.deleted_at.isNone) = true
  · left
    rw [← heq]
    simp [hb]
  · right
    exact ⟨m0, hm0, by rw [← heq]; simp [hb]⟩

/-- C6 counterexample: a dequeued envelope for an offline recipient whose
offline-store SET fails, so the handler returns an error.  The entry is
acked and nothing is pushed, but the record is left COMPLETED by the update
that ran before delivery — it is never transitioned to FAILED. -/
theorem c6_counterexample :
    (processMessage (.wellFormed ⟨"t", "u", "hello", 0⟩) ⟨true, false⟩ 5
        [⟨1, "t", "u", "hello", "pending", none, 1, 1, none⟩] []
        Manager.empty Manager.empty).handlerErr
      = some "store offline failed" ∧
    (processMessage (.wellFormed ⟨"t", "u", "hello", 0⟩) ⟨true, false⟩ 5
        [⟨1, "t", "u", "hello", "pending", none, 1, 1, none⟩] []
        Manager.empty Manager.empty).acked = true ∧
    (processMessage (.wellFormed ⟨"t", "u", "hello", 0⟩) ⟨true, false⟩ 5
        [⟨1, "t", "u", "hello", "pending", none, 1, 1, none⟩] []
        Manager.empty Manager.empty).pushed = [] ∧
    List.map (fun m => m.status)
        (processMessage (.wellFormed ⟨"t", "u", "hello", 0⟩) ⟨true, false⟩ 5
          [⟨1, "t", "u", "hello", "pending", none, 1, 1, none⟩] []
          Manager.empty Manager.empty).db
      = ["completed"] := by
  decide

/-- C6 (amended): on a handler error the broker entry is still acked and no
frame has been pushed, but the record is not transitioned to FAILED — the
worker only logs the error, and no FAILED row appears in the durable store
that was not already FAILED beforehand. -/
theorem c6_error_acked_no_failed (raw : RawData) (env : ProcEnv) (now : Int)
    (db : DB) (store : OfflineStore) (mgrCheck mgrSend : Manager) :
    (processMessage raw env now db store mgrCheck mgrSend).acked = true ∧
    ((processMessage raw env now db store mgrCheck mgrSend).handlerErr.isSome
        = true →
      (processMessage raw env now db store mgrCheck mgrSend).pushed = [] ∧
      ∀ mr ∈ (processMessage raw env now db store mgrCheck mgrSend).db,
        mr.status = "failed" →
        ∃ m0 ∈ db, mr = m0) := by
  cases raw with
  | missing => simp [processMessage]
  | malformed s => simp [processMessage]
  | wellFormed p =>
      refine ⟨rfl, ?_⟩
      intro herr
      simp only [processMessage] at herr ⊢
      constructor
      · revert herr
        unfold ProcessDelayedMessage
        by_cases hon : mgrCheck.IsOnline p.UserID <;> simp only [hon]
        · cases hoe : (mgrSend.SendMessage p.UserID
              ⟨p.TaskID, mkResultMessage p.Message
                (if now < p.ProcessTime then p.ProcessTime else now),
                "realtime"⟩
              (if now < p.ProcessTime then p.ProcessTime else now)).err with
          | none => simp
          | some e =>
              by_cases hsok : env.storeOk <;>
                simp [hsok, sendMessage_err_delivered _ _ _ _ _ hoe]
        · by_cases hsok : env.storeOk <;> simp [hsok]
      · intro mr hmr hfail
        rw [processDelayedMessage_db] at hmr
        by_cases hdb : env.dbOk
        · rw [if_pos hdb] at hmr
          rcases mem_dbUpdateCompleted_status _ _ _ _ mr hmr with hc | hc
          · rw [hc] at hfail
            exact absurd hfail (by decide)
          · exact hc
        · rw [if_neg hdb] at hmr
          exact ⟨mr, hmr, rfl⟩

/-- C6 witness: the amended theorem at a concrete erroring envelope. -/
theorem c6_witness :
    (processMessage (.wellFormed ⟨"t2", "v", "hey", 0⟩) ⟨true, false⟩ 9
        [] [] Manager.empty Manager.empty).acked = true ∧
    (processMessage (.wellFormed ⟨"t2", "v", "hey", 0⟩) ⟨true, false⟩ 9
        [] [] Manager.empty Manager.empty).pushed = [] :=
  ⟨(c6_error_acked_no_failed (.wellFormed ⟨"t2", "v", "hey", 0⟩)
      ⟨true, false⟩ 9 [] [] Manager.empty Manager.empty).1,
   ((c6_error_acked_no_failed (.wellFormed ⟨"t2", "v", "hey", 0⟩)
      ⟨true, false⟩ 9 [] [] Manager.empty Manager.empty).2 (by decide)).1⟩

/-- The sweep's per-row Bool condition holds exactly on live COMPLETED rows
whose `processed_at` precedes the cutoff. -/
theorem cleanup_cond_iff (m : Message) (cutoff : Int) :
    ((m.deleted_at.isNone && m.status == "completed" &&
      (match m.processed_at with
       | some p => decide (p < cutoff)
       | none => false)) = true)
    ↔ (m.deleted_at = none ∧ m.status = "completed" ∧
        ∃ q, m.processed_at = some q ∧ q < cutoff) := by
  cases hp : m.processed_at <;>
    simp [Option.isNone_iff_eq_none, hp, and_assoc]

/-- C4 counterexample: a live COMPLETED row 40 days old under a 30-day
window.  After the sweep the default-scope lookup finds nothing, but the
row has not been physically removed: it is still in the table, tombstoned
with `deleted_at` set, and an unscoped lookup returns it. -/
theorem c4_counterexample :
    dbGet (cleanupOldMessages 30 3456000
        [⟨1, "t", "u", "r", "completed", some 0, 0, 0, none⟩]) "t" = none ∧
    dbGetUnscoped (cleanupOldMessages 30 3456000
        [⟨1, "t", "u", "r", "completed", some 0, 0, 0, none⟩]) "t"
      = some ⟨1, "t", "u", "r", "completed", some 0, 0, 0, some 3456000⟩ ∧
    (cleanupOldMessages 30 3456000
        [⟨1, "t", "u", "r", "completed", some 0, 0, 0, none⟩]).length
      = 1 := by
  decide

/-- C4 (amended): the retention sweep is a gorm soft delete: every live
COMPLETED row whose `processed_at` precedes `now − cleanup_days` gets its
`deleted_at` tombstone set to `now` (all other fields kept, so the row
remains in the table and default-scope lookups no longer see it), and every
other row — PENDING, FAILED, too recent, or already tombstoned — is left
unchanged. -/
theorem c4_sweep_soft_delete (cleanupDays now : Int) (db : DB) :
    List.Forall₂ (fun m0 m1 =>
        (m0.deleted_at = none ∧ m0.status = "completed" ∧
            (∃ q, m0.processed_at = some q ∧
              q < now - (if cleanupDays ≤ 0 then 30 else cleanupDays)
                    * 86400) →
          m1 = { m0 with deleted_at := some now }) ∧
        (¬(m0.deleted_at = none ∧ m0.status = "completed" ∧
            (∃ q, m0.processed_at = some q ∧
              q < now - (if cleanupDays ≤ 0 then 30 else cleanupDays)
                    * 86400)) →
          m1 = m0))
      db (cleanupOldMessages cleanupDays now db) := by
  unfold cleanupOldMessages
  rw [List.forall₂_map_right_iff, List.forall₂_same]
  intro m hm
  constructor
  · intro h
    rw [if_pos ((cleanup_cond_iff m _).mpr h)]
  · intro hn
    rw [if_neg (fun hb => hn ((cleanup_cond_iff m _).mp hb))]

/-- C4 witness: the amended theorem at a default 30-day window and a single
over-age COMPLETED row. -/
theorem c4_witness :
    List.Forall₂ (fun m0 m1 =>
        (m0.deleted_at = none ∧ m0.status = "completed" ∧
            (∃ q, m0.processed_at = some q ∧ q < 2592001 - 30 * 86400) →
          m1 = { m0 with deleted_at := some 2592001 }) ∧
        (¬(m0.deleted_at = none ∧ m0.status = "completed" ∧
            (∃ q, m0.processed_at = some q ∧ q < 2592001 - 30 * 86400)) →
          m1 = m0))
      [⟨2, "t9", "u", "r", "completed", some 0, 0, 0, none⟩]
      (cleanupOldMessages 0 2592001
        [⟨2, "t9", "u", "r", "completed", some 0, 0, 0, none⟩]) := by
  simpa using c4_sweep_soft_delete 0 2592001
    [⟨2, "t9", "u", "r", "completed", some 0, 0, 0, none⟩]

/-- "a is at least as new as b": the newest-first listing order. -/
def newestFirst (a b : Message) : Prop :=
  b.created_at ≤ a.created_at

theorem mem_insertDesc (m x : Message) (l : List Message)
    (h : x ∈ insertDesc m l) : x = m ∨ x ∈ l := by
  induction l with
  | nil =>
      unfold insertDesc at h
      exact Or.inl (List.mem_singleton.mp h)
  | cons y ys ih =>
      unfold insertDesc at h
      by_cases hc : y.created_at ≤ m.created_at
      · rw [if_pos hc] at h
        rcases List.mem_cons.mp h with h1 | h2
        · exact Or.inl h1
        · exact Or.inr h2
      · rw [if_neg hc] at h
        rcases List.mem_cons.mp h with h1 | h2
        · exact Or.inr (h1 ▸ List.mem_cons_self y ys)
        · rcases ih h2 with ha | hb
          · exact Or.inl ha
          · exact Or.inr (List.mem_cons_of_mem y hb)

theorem pairwise_insertDesc (m : Message) (l : List Message)
    (h : l.Pairwise newestFirst) :
    (insertDesc m l).Pairwise newestFirst := by
  induction l with
  | nil => simp [insertDesc]
  | cons y ys ih =>
      rw [List.pairwise_cons] at h
      obtain ⟨hy, hys⟩ := h
      unfold insertDesc
      by_cases hc : y.created_at ≤ m.created_at
      · rw [if_pos hc, List.pairwise_cons]
        refine ⟨?_, List.pairwise_cons.mpr ⟨hy, hys⟩⟩
        intro z hz
        rcases List.mem_cons.mp hz with rfl | hz2
        · exact hc
        · exact le_trans (hy z hz2) hc
      · rw [if_neg hc, List.pairwise_cons]
        refine ⟨?_, ih hys⟩
        intro z hz
        rcases mem_insertDesc m z ys hz with rfl | hz2
        · exact le_of_lt (lt_of_not_le hc)
        · exact hy z hz2

theorem pairwise_sortByCreatedDesc (l : List Message) :
    (sortByCreatedDesc l).Pairwise newestFirst := by
  unfold sortByCreatedDesc
  induction l with
  | nil => simp
  | cons x xs ih => exact pairwise_insertDesc x _ ih

/-- C9 counterexample: a request with `limit=150` is rejected with HTTP 400
by the binding validator — it is not served with an effective limit of 100
— while `limit=0` is replaced by the default 10, not clamped to 1. -/
theorem c9_counterexample :
    GetMessages "u" (some 1) (some 150) none [] = .badRequest ∧
    GetMessages "u" (some 1) (some 0) none [] = .ok 0 1 10 [] := by
  constructor <;> rfl

/-- C9 (amended): an explicit `limit` outside [1,100] (other than 0) or an
explicit `page` below 1 (other than 0) fails query binding and the request
is answered with HTTP 400; on a successful bind the effective page is the
requested page (1 when omitted or 0), the effective limit is the requested
limit when in [1,100] and the default 10 when omitted or 0, and the
returned records are ordered newest-first. -/
theorem c9_listing_clamps (userID : String) (page limit : Option Int)
    (status : Option String) (db : DB) (hu : userID ≠ "") :
    (∀ l, limit = some l → l ≠ 0 → (l < 1 ∨ 100 < l) →
      GetMessages userID page limit status db = .badRequest) ∧
    (∀ q, page = some q → q ≠ 0 → q < 1 →
      GetMessages userID page limit status db = .badRequest) ∧
    (∀ total effPage effLimit msgs,
      GetMessages userID page limit status db
          = .ok total effPage effLimit msgs →
      1 ≤ effPage ∧ 1 ≤ effLimit ∧ effLimit ≤ 100 ∧
      (∀ l, limit = some l → 1 ≤ l → l ≤ 100 → effLimit = l) ∧
      (∀ q, page = some q → 1 ≤ q → effPage = q) ∧
      ((limit = none ∨ limit = some 0) → effLimit = 10) ∧
      ((page = none ∨ page = some 0) → effPage = 1) ∧
      msgs.Pairwise newestFirst) := by
  refine ⟨?_, ?_, ?_⟩
  · intro l hl hne hout
    have hb : bindGetMessages page limit status = none := by
      unfold bindGetMessages
      by_cases hp : (page.getD 0 ≠ 0 ∧ page.getD 0 < 1)
      · rw [if_pos hp]
      · rw [if_neg hp, if_pos (by simp [hl, hne, hout])]
    unfold GetMessages
    rw [if_neg hu, hb]
  · intro q hq hne hlt
    have hb : bindGetMessages page limit status = none := by
      unfold bindGetMessages
      rw [if_pos (by simp [hq, hne, hlt])]
    unfold GetMessages
    rw [if_neg hu, hb]
  · intro total effPage effLimit msgs hok
    unfold GetMessages at hok
    rw [if_neg hu] at hok
    cases hbind : bindGetMessages page limit status with
    | none => rw [hbind] at hok; simp at hok
    | some req =>
        rw [hbind] at hok
        simp only [MsgResponse.ok.injEq] at hok
        obtain ⟨-, hpage, hlimit, hmsgs⟩ := hok
        have hreq : req.Page = page.getD 0 ∧ req.Limit = limit.getD 0 ∧
            ¬(limit.getD 0 ≠ 0 ∧ (limit.getD 0 < 1 ∨ 100 < limit.getD 0)) ∧
            ¬(page.getD 0 ≠ 0 ∧ page.getD 0 < 1) := by
          unfold bindGetMessages at hbind
          split_ifs at hbind with h1 h2 h3
          have := Option.some.inj hbind
          rw [← this]
          exact ⟨rfl, rfl, h2, h1⟩
        obtain ⟨hrp, hrl, hl2, hp2⟩ := hreq
        refine ⟨?_, ?_, ?_, ?_, ?_, ?_, ?_, ?_⟩
        · rw [← hpage]
          by_cases hc : req.Page < 1
          · rw [if_pos hc]
          · rw [if_neg hc]; omega
        · rw [← hlimit]
          by_cases hc : req.Limit < 1 ∨ 100 < req.Limit
          · rw [if_pos hc]; omega
          · rw [if_neg hc]; omega
        · rw [← hlimit]
          by_cases hc : req.Limit < 1 ∨ 100 < req.Limit
          · rw [if_pos hc]; omega
          · rw [if_neg hc]; omega
        · intro l hl hl1 hl100
          rw [← hlimit, hrl, hl]
          rw [if_neg (by simp [Option.getD_some]; omega)]
          simp
        · intro q hq hq1
          rw [← hpage, hrp, hq]
          rw [if_neg (by simp [Option.getD_some]; omega)]
          simp
        · intro hcase
          rw [← hlimit, hrl]
          rcases hcase with h | h <;> rw [h] <;> simp
        · intro hcase
          rw [← hpage, hrp]
          rcases hcase with h | h <;> rw [h] <;> simp
        · rw [← hmsgs]
          exact (pairwise_sortByCreatedDesc _).sublist
            ((List.take_sublist _ _).trans (List.drop_sublist _ _))

/-- C9 witness: a concrete over-limit request is rejected. -/
theorem c9_witness :
    GetMessages "ux" (some 1) (some 101) none [] = .badRequest :=
  (c9_listing_clamps "ux" (some 1) (some 101) none [] (by decide)).1
    101 rfl (by decide) (by decide)

/-- C3: evaluation at the failing input.  The offline store holds slots for
tasks `tA` and `tB` (the latter stored for a different recipient — the key
format carries no recipient at all).  `GetUserOfflineMessages "A"` returns
both keys, and returns the same list for recipient `"B"`, since its
`userID` argument is ignored; the drain for `"A"` therefore pushes both
results onto `"A"`'s connection and deletes both slots, removing the other
recipient's entry. -/
theorem c3_drain_not_scoped :
    GetUserOfflineMessages "A"
        [⟨offlineResultKey "tA", "resA", 100⟩,
         ⟨offlineResultKey "tB", "resB", 100⟩] 0
      = [offlineResultKey "tA", offlineResultKey "tB"] ∧
    GetUserOfflineMessages "A"
        [⟨offlineResultKey "tA", "resA", 100⟩,
         ⟨offlineResultKey "tB", "resB", 100⟩] 0
      = GetUserOfflineMessages "B"
        [⟨offlineResultKey "tA", "resA", 100⟩,
         ⟨offlineResultKey "tB", "resB", 100⟩] 0 ∧
    (pushOfflineMessages "A" ⟨1, true⟩
        [⟨offlineResultKey "tA", "resA", 100⟩,
         ⟨offlineResultKey "tB", "resB", 100⟩] 0).2
      = [⟨"tA", "resA", "offline"⟩, ⟨"tB", "resB", "offline"⟩] ∧
    (pushOfflineMessages "A" ⟨1, true⟩
        [⟨offlineResultKey "tA", "resA", 100⟩,
         ⟨offlineResultKey "tB", "resB", 100⟩] 0).1 = [] := by
  decide



